import Mathlib

/-!
Shallow embedding of the `amv` backend server (`server/main.go`).

The Go program keeps one in-memory store (`MemoryStorage`) holding three
maps: vehicle lists, record sequences keyed by list id, and session
tokens.  Every handler reads or mutates this store under one global
mutex.  Here the store is a structure of association lists (a Go map is
a finite key-value mapping; iteration order is irrelevant to every
property proved below, and the association-list representation keeps the
definitions executable).  Wall-clock reads (`time.Now()`) become explicit
integer parameters: each distinct `time.Now()` call site of a handler is
a separate parameter, in source order.  `int64` values are modelled as
`Int`; the only place 64-bit bounds matter is `strconv.ParseInt(s, 10,
64)`, modelled with an explicit range check.
-/

set_option autoImplicit false

namespace Amv

/-- A vehicle list entry (`VehicleList` in main.go, lines 35-42). -/
structure VehicleList where
  ID : Int
  DisplayName : String
  Name : String
  Color : String
  Order : Int
  Status : Int
deriving DecidableEq, Repr

/-- A record in a vehicle list (`Record` in main.go, lines 45-49). -/
structure Record where
  ID : Int
  Plate : String
  VehicleType : String
deriving DecidableEq, Repr

/-- The value stored per token (the anonymous struct in main.go, lines 28-31). -/
structure TokenData where
  Expiry : Int
  ID : Int
deriving DecidableEq, Repr

/-- Lookup in an association list representing a Go map: the unique entry
for the key, if present (`m[k]` with `ok` flag). -/
def alookup {α β : Type} [DecidableEq α] : List (α × β) → α → Option β
  | [], _ => none
  | (k, v) :: rest, key => if key = k then some v else alookup rest key

/-- Map assignment `m[k] = v`: replace the entry for the key if present,
append it otherwise. -/
def ainsert {α β : Type} [DecidableEq α] : List (α × β) → α → β → List (α × β)
  | [], key, val => [(key, val)]
  | (k, v) :: rest, key, val =>
    if key = k then (key, val) :: rest else (k, v) :: ainsert rest key val

/-- The in-memory store (`MemoryStorage` in main.go, lines 24-32).  The
mutex serialises handler bodies; each handler below is one atomic
function of the store. -/
structure MemoryStorage where
  Lists : List (Int × VehicleList)
  Records : List (Int × List Record)
  Tokens : List (String × TokenData)
deriving DecidableEq, Repr

/-- HTTP methods distinguished by the handlers. -/
inductive Method where
  | GET
  | POST
  | DELETE
  | OTHER
deriving DecidableEq, Repr

/-- A plain HTTP response: status code and body.  `http.Error` writes the
message followed by a newline. -/
structure HttpResponse where
  status : Nat
  body : String
deriving DecidableEq, Repr

/-- The response `http.Error(w, msg, code)` produces. -/
def httpError (code : Nat) (msg : String) : HttpResponse :=
  { status := code, body := msg ++ "\n" }

/-- Decimal digit value of a character, if it is a digit. -/
def digitVal (c : Char) : Option Nat :=
  if c.isDigit then some (c.toNat - 48) else none

/-- Accumulate the value of a run of decimal digits; fails on any
non-digit character. -/
def digitsValAux : List Char → Nat → Option Nat
  | [], acc => some acc
  | c :: cs, acc =>
    match digitVal c with
    | none => none
    | some d => digitsValAux cs (acc * 10 + d)

/-- Model of `strconv.ParseInt(s, 10, 64)`: optional sign, then a
non-empty run of decimal digits, with the value required to fit a signed
64-bit integer; every other input is an error (`none`). -/
def parseInt64 (s : String) : Option Int :=
  match s.data with
  | [] => none
  | c :: cs =>
    let signed : Bool × List Char :=
      if c = '-' then (true, cs)
      else if c = '+' then (false, cs)
      else (false, c :: cs)
    match signed.2 with
    | [] => none
    | ds =>
      match digitsValAux ds 0 with
      | none => none
      | some n =>
        let v : Int := if signed.1 then -(n : Int) else (n : Int)
        if -(2 ^ 63) ≤ v ∧ v ≤ 2 ^ 63 - 1 then some v else none

/-- The request context carrying the list id injected by
`recordMiddleware`, or nothing when the middleware did not run.
`contextID` (main.go lines 277-282) returns the stored id, or `0` when
the context holds no id value. -/
def contextID (ctx : Option Int) : Int :=
  match ctx with
  | some id => id
  | none => 0

/-- `generateToken` (main.go lines 306-308): the owner id and a fresh
`UnixNano` timestamp joined by a dash. -/
def generateToken (id : Int) (now : Int) : String :=
  toString id ++ "-" ++ toString now

/-- Result of `loginHandler`: status, the session cookie value set (if
any), and the store afterwards. -/
structure LoginResult where
  status : Nat
  cookie : Option String
  st : MemoryStorage
deriving DecidableEq, Repr

/-- The credentials body of `POST /login`; decoding never inspects the
field values. -/
structure Creds where
  Username : String
  Password : String
  IsRememberMe : Bool
deriving DecidableEq, Repr

/-- `loginHandler` (main.go lines 107-148).  `body` is `none` for a
malformed JSON body.  `tId` is the `time.Now().UnixNano()` of line 123
(the synthesized owner id), `tTok` the `UnixNano` read inside
`generateToken`, and `tExp` the `time.Now()` of line 125, so the token's
expiry is `tExp + tokenExpiry`. -/
def loginHandler (st : MemoryStorage) (m : Method) (body : Option Creds)
    (tokenExpiry tId tTok tExp : Int) : LoginResult :=
  match m with
  | Method.POST =>
    match body with
    | none => { status := 400, cookie := none, st := st }
    | some _ =>
      let id := tId
      let token := generateToken id tTok
      let expiry := tExp + tokenExpiry
      { status := 200
        cookie := some token
        st := { st with Tokens := ainsert st.Tokens token { Expiry := expiry, ID := id } } }
  | _ => { status := 405, cookie := none, st := st }

/-- Payload of a successful `GET /api/v1/vehiclelists` response. -/
structure ListsPayload where
  entries : List VehicleList
  offset : Nat
  limit : Nat
  totalCount : Nat
deriving DecidableEq, Repr

/-- `vehicleListsHandler` (main.go lines 150-171): on GET, snapshot every
value of the Lists map into `entries`, with metadata `offset = 0`,
`limit = 20`, and `totalCount` the number of entries collected; any
other method is 405 with no payload. -/
def vehicleListsHandler (st : MemoryStorage) (m : Method) : Nat × Option ListsPayload :=
  match m with
  | Method.GET =>
    let lists := st.Lists.map (fun kv => kv.2)
    (200, some { entries := lists, offset := 0, limit := 20, totalCount := lists.length })
  | _ => (405, none)

/-- `handleGetRecord` (main.go lines 205-221): look up the record
sequence for the context list id; 404 when the key is absent, otherwise
200 with the sequence as the entries. -/
def handleGetRecord (st : MemoryStorage) (ctx : Option Int) : Nat × Option (List Record) :=
  let id := contextID ctx
  match alookup st.Records id with
  | none => (404, none)
  | some records => (200, some records)

/-- `handlePostRecord` (main.go lines 223-236): decode the body as a
Record (`none` models a malformed body, answered 400 with the store
untouched); append it to the context list's sequence — Go's
`append(storage.Records[id], record)` reads the missing key as the empty
slice — and answer 201. -/
def handlePostRecord (st : MemoryStorage) (ctx : Option Int) (body : Option Record) :
    Nat × MemoryStorage :=
  let id := contextID ctx
  match body with
  | none => (400, st)
  | some record =>
    (201, { st with
      Records := ainsert st.Records id ((alookup st.Records id).getD [] ++ [record]) })

/-- The delete loop of `handleDeleteRecord` (main.go lines 259-266):
remove the first record whose `ID` matches, keeping the rest in order
(`append(records[:i], records[i+1:]...)`); `none` when no record
matches. -/
def deleteFirstRecord : List Record → Int → Option (List Record)
  | [], _ => none
  | r :: rest, recordID =>
    if r.ID = recordID then some rest
    else (deleteFirstRecord rest recordID).map (fun l => r :: l)

/-- Result of `handleDeleteRecord`: status, response body, and the store
afterwards. -/
structure DeleteResult where
  status : Nat
  body : String
  st : MemoryStorage
deriving DecidableEq, Repr

/-- `handleDeleteRecord` (main.go lines 238-269).  `recordIDStr` is the
`recordId` query parameter as returned by `Query().Get` (the empty
string when absent): 400 when missing or unparseable, 404 when the
context list id has no entry in the Records map, 404 when no record in
the sequence matches, otherwise store the shortened sequence and answer
200 with an empty body. -/
def handleDeleteRecord (st : MemoryStorage) (ctx : Option Int) (recordIDStr : String) :
    DeleteResult :=
  let id := contextID ctx
  if recordIDStr = "" then
    { status := 400, body := "Missing recordId parameter" ++ "\n", st := st }
  else
    match parseInt64 recordIDStr with
    | none => { status := 400, body := "Invalid recordId parameter" ++ "\n", st := st }
    | some recordID =>
      match alookup st.Records id with
      | none => { status := 404, body := "List not found" ++ "\n", st := st }
      | some records =>
        match deleteFirstRecord records recordID with
        | none => { status := 404, body := "Record not found" ++ "\n", st := st }
        | some records2 =>
          { status := 200, body := ""
            st := { st with Records := ainsert st.Records id records2 } }

/-- `tokenMiddleware` (main.go lines 284-304).  `cookie` is the value of
the `s` cookie, `none` when the cookie is absent; `now` is the
`time.Now()` of the expiry check (line 296, `After` meaning strictly
later).  On success the owner id resolved from the token is handed to
`next`; the middleware itself returns the store it was given — the
validation only reads the Tokens map. -/
def tokenMiddleware (st : MemoryStorage) (cookie : Option String) (now : Int)
    (next : Int → HttpResponse) : HttpResponse × MemoryStorage :=
  match cookie with
  | none => (httpError 401 "Unauthorized", st)
  | some v =>
    match alookup st.Tokens v with
    | none => (httpError 401 "Unauthorized", st)
    | some data =>
      if data.Expiry < now then (httpError 401 "Unauthorized", st)
      else (next data.ID, st)

end Amv

namespace Amv

/-- Looking a key up right after assigning it yields the assigned value. -/
theorem alookup_ainsert_self {α β : Type} [DecidableEq α] (m : List (α × β)) (k : α) (v : β) :
    alookup (ainsert m k v) k = some v := by
  induction m with
  | nil => simp [ainsert, alookup]
  | cons kv rest ih =>
    obtain ⟨k0, v0⟩ := kv
    by_cases h : k = k0
    · simp [ainsert, alookup, h]
    · simp [ainsert, alookup, h, ih]

/-- Assigning one key leaves the lookup of every other key unchanged. -/
theorem alookup_ainsert_ne {α β : Type} [DecidableEq α] (m : List (α × β)) (k k' : α) (v : β)
    (h : k' ≠ k) : alookup (ainsert m k v) k' = alookup m k' := by
  induction m with
  | nil => simp [ainsert, alookup, h]
  | cons kv rest ih =>
    obtain ⟨k0, v0⟩ := kv
    by_cases hk : k = k0
    · subst hk
      simp [ainsert, alookup, h]
    · by_cases hk' : k' = k0
      · simp [ainsert, alookup, hk, hk']
      · simp [ainsert, alookup, hk, hk', ih]

/-- The delete loop finds nothing exactly when no record carries the
requested id. -/
theorem deleteFirstRecord_eq_none_iff (recs : List Record) (recordID : Int) :
    deleteFirstRecord recs recordID = none ↔ ∀ r ∈ recs, r.ID ≠ recordID := by
  induction recs with
  | nil => simp [deleteFirstRecord]
  | cons r rest ih =>
    by_cases h : r.ID = recordID
    · simp [deleteFirstRecord, h]
    · simp only [deleteFirstRecord, if_neg h, Option.map_eq_none', List.mem_cons]
      constructor
      · intro hnone x hx
        rcases hx with hx | hx
        · subst hx; exact h
        · exact (ih.mp hnone) x hx
      · intro hall
        exact ih.mpr (fun x hx => hall x (Or.inr hx))

/-- When some record carries the requested id, the delete loop removes
exactly the first such record and keeps everything else in order. -/
theorem deleteFirstRecord_first_match (recs : List Record) (recordID : Int)
    (h : ∃ r ∈ recs, r.ID = recordID) :
    ∃ pre r post, recs = pre ++ r :: post ∧ r.ID = recordID ∧
      (∀ x ∈ pre, x.ID ≠ recordID) ∧
      deleteFirstRecord recs recordID = some (pre ++ post) := by
  induction recs with
  | nil => simp at h
  | cons r0 rest ih =>
    by_cases hid : r0.ID = recordID
    · exact ⟨[], r0, rest, by simp, hid, by simp, by simp [deleteFirstRecord, hid]⟩
    · have hrest : ∃ r ∈ rest, r.ID = recordID := by
        rcases h with ⟨r, hr, hrid⟩
        rcases List.mem_cons.mp hr with h0 | h0
        · exact absurd (h0 ▸ hrid) hid
        · exact ⟨r, h0, hrid⟩
      obtain ⟨pre, r, post, heq, hrid, hpre, hdel⟩ := ih hrest
      refine ⟨r0 :: pre, r, post, by simp [heq], hrid, ?_, ?_⟩
      · intro x hx
        rcases List.mem_cons.mp hx with h0 | h0
        · subst h0; exact hid
        · exact hpre x h0
      · simp [deleteFirstRecord, hid, hdel]

end Amv

namespace Amv

/-- C1: Session token validation accepts a token if and only if it is
present in the Token Store and `now <= expiry`: when the cookie is
absent, or its value is not a key of the Tokens mapping, or the current
time is after the stored expiry, the middleware answers 401 Unauthorized
whatever the terminal handler would do (so the handler is not invoked);
otherwise the response is exactly the terminal handler's response on the
resolved owner id.  The third conjunct shows the two cases are
exhaustive, so the acceptance condition is an if-and-only-if. -/
theorem C1_token_validation (st : MemoryStorage) (cookie : Option String) (now : Int)
    (next : Int → HttpResponse) :
    ((cookie = none ∨ (∃ v, cookie = some v ∧ alookup st.Tokens v = none) ∨
        (∃ v d, cookie = some v ∧ alookup st.Tokens v = some d ∧ d.Expiry < now)) →
      tokenMiddleware st cookie now next = (httpError 401 "Unauthorized", st)) ∧
    (∀ v d, cookie = some v → alookup st.Tokens v = some d → now ≤ d.Expiry →
      tokenMiddleware st cookie now next = (next d.ID, st)) ∧
    ((cookie = none ∨ (∃ v, cookie = some v ∧ alookup st.Tokens v = none) ∨
        (∃ v d, cookie = some v ∧ alookup st.Tokens v = some d ∧ d.Expiry < now)) ∨
      (∃ v d, cookie = some v ∧ alookup st.Tokens v = some d ∧ now ≤ d.Expiry)) := by
  refine ⟨?_, ?_, ?_⟩
  · rintro (hnone | ⟨v, hv, hlook⟩ | ⟨v, d, hv, hlook, hexp⟩)
    · subst hnone; rfl
    · subst hv; simp [tokenMiddleware, hlook]
    · subst hv; simp [tokenMiddleware, hlook, hexp]
  · intro v d hv hlook hle
    subst hv
    simp [tokenMiddleware, hlook, not_lt.mpr hle]
  · cases cookie with
    | none => exact Or.inl (Or.inl rfl)
    | some v =>
      cases hlook : alookup st.Tokens v with
      | none => exact Or.inl (Or.inr (Or.inl ⟨v, rfl, hlook⟩))
      | some d =>
        rcases lt_or_le d.Expiry now with hexp | hexp
        · exact Or.inl (Or.inr (Or.inr ⟨v, d, rfl, hlook, hexp⟩))
        · exact Or.inr ⟨v, d, rfl, hlook, hexp⟩

/-- Witness for C1 at a concrete store: a stored, unexpired token is
accepted and the handler runs on its owner id. -/
theorem C1_token_validation_witness :
    tokenMiddleware ⟨[], [], [(("t1"), ⟨100, 7⟩)]⟩ (some ("t1")) 50
        (fun i => ⟨200, toString i⟩) =
      ((fun i : Int => HttpResponse.mk 200 (toString i)) 7, ⟨[], [], [(("t1"), ⟨100, 7⟩)]⟩) :=
  (C1_token_validation ⟨[], [], [(("t1"), ⟨100, 7⟩)]⟩ (some ("t1")) 50
    (fun i => ⟨200, toString i⟩)).2.1 ("t1") ⟨100, 7⟩ rfl (by decide) (by decide)

/-- C8: Token validation never mutates the store: for every cookie
(absent, unknown, expired or valid) the middleware hands back exactly
the store it was given, so the Tokens, Lists and Records mappings are
unchanged — in particular an expired entry is not removed. -/
theorem C8_validation_mutates_nothing (st : MemoryStorage) (cookie : Option String) (now : Int)
    (next : Int → HttpResponse) :
    (tokenMiddleware st cookie now next).2 = st ∧
    (tokenMiddleware st cookie now next).2.Tokens = st.Tokens ∧
    (tokenMiddleware st cookie now next).2.Lists = st.Lists ∧
    (tokenMiddleware st cookie now next).2.Records = st.Records := by
  have h : (tokenMiddleware st cookie now next).2 = st := by
    cases cookie with
    | none => rfl
    | some v =>
      cases hl : alookup st.Tokens v with
      | none => simp [tokenMiddleware, hl]
      | some d =>
        by_cases hexp : d.Expiry < now <;> simp [tokenMiddleware, hl, hexp]
  exact ⟨h, by rw [h], by rw [h], by rw [h]⟩

/-- C10: A request context carrying no list id resolves to list id 0:
`contextID` returns 0 on the empty context, and each record handler run
without the middleware's injected id behaves exactly as if the list id
were 0. -/
theorem C10_contextID_default (st : MemoryStorage) (body : Option Record) (ridStr : String) :
    contextID none = 0 ∧
    handleGetRecord st none = handleGetRecord st (some 0) ∧
    handlePostRecord st none body = handlePostRecord st (some 0) body ∧
    handleDeleteRecord st none ridStr = handleDeleteRecord st (some 0) ridStr :=
  ⟨rfl, rfl, rfl, rfl⟩

/-- C3: The get-records handler answers 404 if and only if the scoped
list id has no entry in the Records mapping; a list id mapped to the
empty sequence is answered 200 with the empty entries list. -/
theorem C3_get_records (st : MemoryStorage) (ctx : Option Int) :
    ((handleGetRecord st ctx).1 = 404 ↔ alookup st.Records (contextID ctx) = none) ∧
    (alookup st.Records (contextID ctx) = some [] →
      handleGetRecord st ctx = (200, some [])) := by
  unfold handleGetRecord
  cases h : alookup st.Records (contextID ctx) with
  | none => simp [h]
  | some records => simp [h]

/-- Witness for C3: a list id present with an empty sequence yields 200
with empty entries. -/
theorem C3_get_records_witness :
    handleGetRecord ⟨[], [(1, [])], []⟩ (some 1) = (200, some []) :=
  (C3_get_records ⟨[], [(1, [])], []⟩ (some 1)).2 (by decide)

/-- C7: On GET, the vehicle-lists handler answers 200 with a payload
containing every value of the Lists mapping (no offset or limit is
applied) and whose `totalCount` equals the number of entries of the
mapping. -/
theorem C7_lists_snapshot (st : MemoryStorage) :
    ∃ p, vehicleListsHandler st Method.GET = (200, some p) ∧
      (∀ kv ∈ st.Lists, kv.2 ∈ p.entries) ∧
      p.totalCount = st.Lists.length := by
  refine ⟨{ entries := st.Lists.map (fun kv => kv.2), offset := 0, limit := 20
            totalCount := (st.Lists.map (fun kv => kv.2)).length }, rfl, ?_, by simp⟩
  intro kv hkv
  exact List.mem_map_of_mem _ hkv

/-- Witness for C7 at a concrete two-entry store. -/
theorem C7_lists_snapshot_witness :
    ∃ p, vehicleListsHandler
        ⟨[(1, ⟨1, "A", "a", "red", 0, 0⟩), (2, ⟨2, "B", "b", "blue", 1, 0⟩)], [], []⟩
        Method.GET = (200, some p) ∧
      (∀ kv ∈ (⟨[(1, ⟨1, "A", "a", "red", 0, 0⟩), (2, ⟨2, "B", "b", "blue", 1, 0⟩)], [], []⟩ :
          MemoryStorage).Lists, kv.2 ∈ p.entries) ∧
      p.totalCount = (⟨[(1, ⟨1, "A", "a", "red", 0, 0⟩), (2, ⟨2, "B", "b", "blue", 1, 0⟩)], [], []⟩ :
          MemoryStorage).Lists.length :=
  C7_lists_snapshot ⟨[(1, ⟨1, "A", "a", "red", 0, 0⟩), (2, ⟨2, "B", "b", "blue", 1, 0⟩)], [], []⟩

end Amv

namespace Amv

/-- C2: When the requested record id occurs in the scoped list's
sequence, the delete handler removes exactly the first occurrence —
the sequence splits as `pre ++ r :: post` with `r` the first matching
record — stores `pre ++ post` (relative order of the remaining records
unchanged), and answers 200 with an empty body. -/
theorem C2_delete_first_occurrence (st : MemoryStorage) (L : Int) (ridStr : String)
    (recordID : Int) (records : List Record)
    (hparse : parseInt64 ridStr = some recordID)
    (hlook : alookup st.Records L = some records)
    (hmem : ∃ r ∈ records, r.ID = recordID) :
    ∃ pre r post, records = pre ++ r :: post ∧ r.ID = recordID ∧
      (∀ x ∈ pre, x.ID ≠ recordID) ∧
      handleDeleteRecord st (some L) ridStr =
        { status := 200, body := ""
          st := { st with Records := ainsert st.Records L (pre ++ post) } } := by
  obtain ⟨pre, r, post, heq, hrid, hpre, hdel⟩ :=
    deleteFirstRecord_first_match records recordID hmem
  refine ⟨pre, r, post, heq, hrid, hpre, ?_⟩
  have hne : ridStr ≠ "" := by
    intro h
    rw [h] at hparse
    exact Option.noConfusion hparse
  unfold handleDeleteRecord
  simp [hne, hparse, contextID, hlook, hdel]

/-- Witness for C2: deleting id 1 from a three-record sequence whose
first and third records carry id 1 removes only the first one. -/
theorem C2_delete_first_occurrence_witness :
    ∃ pre r post,
      [Record.mk 1 "a" "x", Record.mk 2 "b" "y", Record.mk 1 "c" "z"] = pre ++ r :: post ∧
      r.ID = 1 ∧ (∀ x ∈ pre, x.ID ≠ 1) ∧
      handleDeleteRecord
          ⟨[], [(7, [Record.mk 1 "a" "x", Record.mk 2 "b" "y", Record.mk 1 "c" "z"])], []⟩
          (some 7) ("1") =
        { status := 200, body := ""
          st := { (⟨[], [(7, [Record.mk 1 "a" "x", Record.mk 2 "b" "y", Record.mk 1 "c" "z"])],
              []⟩ : MemoryStorage) with
            Records := ainsert
              (⟨[], [(7, [Record.mk 1 "a" "x", Record.mk 2 "b" "y", Record.mk 1 "c" "z"])],
                []⟩ : MemoryStorage).Records 7 (pre ++ post) } } :=
  C2_delete_first_occurrence
    ⟨[], [(7, [Record.mk 1 "a" "x", Record.mk 2 "b" "y", Record.mk 1 "c" "z"])], []⟩
    7 ("1") 1 [Record.mk 1 "a" "x", Record.mk 2 "b" "y", Record.mk 1 "c" "z"]
    (by decide) (by decide) ⟨Record.mk 1 "a" "x", by decide, rfl⟩

/-- C6: Every failing path of the delete handler leaves the store
exactly unchanged: a missing `recordId` parameter is 400, an
unparseable one is 400, a scoped list id absent from the Records
mapping is 404, and an existing list with no matching record is 404 —
each with the original store in the result. -/
theorem C6_delete_error_atomicity (st : MemoryStorage) (L : Int) (ridStr : String) :
    (ridStr = "" →
      handleDeleteRecord st (some L) ridStr =
        { status := 400, body := "Missing recordId parameter" ++ "\n", st := st }) ∧
    (ridStr ≠ "" → parseInt64 ridStr = none →
      handleDeleteRecord st (some L) ridStr =
        { status := 400, body := "Invalid recordId parameter" ++ "\n", st := st }) ∧
    (∀ recordID, parseInt64 ridStr = some recordID → alookup st.Records L = none →
      handleDeleteRecord st (some L) ridStr =
        { status := 404, body := "List not found" ++ "\n", st := st }) ∧
    (∀ recordID records, parseInt64 ridStr = some recordID →
      alookup st.Records L = some records → (∀ r ∈ records, r.ID ≠ recordID) →
      handleDeleteRecord st (some L) ridStr =
        { status := 404, body := "Record not found" ++ "\n", st := st }) := by
  refine ⟨?_, ?_, ?_, ?_⟩
  · intro h
    simp [handleDeleteRecord, h]
  · intro hne hparse
    simp [handleDeleteRecord, hne, hparse]
  · intro recordID hparse hlook
    have hne : ridStr ≠ "" := by
      intro h
      rw [h] at hparse
      exact Option.noConfusion hparse
    simp [handleDeleteRecord, hne, hparse, contextID, hlook]
  · intro recordID records hparse hlook hnone
    have hne : ridStr ≠ "" := by
      intro h
      rw [h] at hparse
      exact Option.noConfusion hparse
    have hdel : deleteFirstRecord records recordID = none :=
      (deleteFirstRecord_eq_none_iff records recordID).mpr hnone
    simp [handleDeleteRecord, hne, hparse, contextID, hlook, hdel]

/-- Witness for C6: deleting id 5 from a list holding only id 1 answers
404 and hands back the untouched store. -/
theorem C6_delete_error_atomicity_witness :
    handleDeleteRecord ⟨[], [(1, [Record.mk 1 "a" "x"])], []⟩ (some 1) ("5") =
      { status := 404, body := "Record not found" ++ "\n"
        st := ⟨[], [(1, [Record.mk 1 "a" "x"])], []⟩ } :=
  (C6_delete_error_atomicity ⟨[], [(1, [Record.mk 1 "a" "x"])], []⟩ 1 ("5")).2.2.2
    5 [Record.mk 1 "a" "x"] (by decide) (by decide) (by decide)

/-- C5: Creating a record for list id `L` (appended to `L`'s sequence,
which is created when absent) answers 201, and an immediate read of
`L`'s records answers 200 with the old sequence extended by the new
record, whose last element is that record in all fields. -/
theorem C5_create_then_read (st : MemoryStorage) (L : Int) (record : Record) :
    (handlePostRecord st (some L) (some record)).1 = 201 ∧
    handleGetRecord (handlePostRecord st (some L) (some record)).2 (some L) =
      (200, some ((alookup st.Records L).getD [] ++ [record])) ∧
    ((alookup st.Records L).getD [] ++ [record]).getLast? = some record := by
  refine ⟨rfl, ?_, ?_⟩
  · simp [handleGetRecord, handlePostRecord, contextID, alookup_ainsert_self]
  · rw [List.getLast?_append_cons]
    rfl

/-- C9: Deleting the last remaining record of a list keeps the list id
in the Records mapping, now mapped to the empty sequence, so a
subsequent read answers 200 with empty entries rather than 404. -/
theorem C9_delete_last_keeps_key (st : MemoryStorage) (L : Int) (ridStr : String)
    (recordID : Int) (r : Record)
    (hparse : parseInt64 ridStr = some recordID)
    (hlook : alookup st.Records L = some [r])
    (hid : r.ID = recordID) :
    ∃ st2, handleDeleteRecord st (some L) ridStr = { status := 200, body := "", st := st2 } ∧
      alookup st2.Records L = some [] ∧
      handleGetRecord st2 (some L) = (200, some []) := by
  have hne : ridStr ≠ "" := by
    intro h
    rw [h] at hparse
    exact Option.noConfusion hparse
  have hdel : deleteFirstRecord [r] recordID = some [] := by
    simp [deleteFirstRecord, hid]
  refine ⟨{ st with Records := ainsert st.Records L [] }, ?_, ?_, ?_⟩
  · unfold handleDeleteRecord
    simp [hne, hparse, contextID, hlook, hdel]
  · simpa using alookup_ainsert_self st.Records L []
  · simp [handleGetRecord, contextID, alookup_ainsert_self]

/-- Witness for C9: deleting the lone record of list 1 leaves the key
mapped to the empty sequence and the read answers 200 with `[]`. -/
theorem C9_delete_last_keeps_key_witness :
    ∃ st2, handleDeleteRecord ⟨[], [(1, [Record.mk 100 "ABC" "Car"])], []⟩ (some 1) ("100") =
        { status := 200, body := "", st := st2 } ∧
      alookup st2.Records 1 = some [] ∧
      handleGetRecord st2 (some 1) = (200, some []) :=
  C9_delete_last_keeps_key ⟨[], [(1, [Record.mk 100 "ABC" "Car"])], []⟩ 1 ("100") 100
    (Record.mk 100 "ABC" "Car") (by decide) (by decide) rfl

end Amv

namespace Amv

/-- C4 counterexample: two distinct successful login calls (their two
cookies differ) whose id-generation timestamps coincide at `UnixNano`
5 — the owner id of a login is `time.Now().UnixNano()`, which nothing
prevents two calls from sharing — both resolve via token validation to
the same owner id 5, refuting the claim that any two login calls
synthesize different owner ids. -/
theorem C4_distinct_owner_ids_counterexample :
    (loginHandler ⟨[], [], []⟩ Method.POST (some ⟨"u", "p", false⟩) 300 5 5 5).status = 200 ∧
    (loginHandler
        (loginHandler ⟨[], [], []⟩ Method.POST (some ⟨"u", "p", false⟩) 300 5 5 5).st
        Method.POST (some ⟨"u", "p", false⟩) 300 5 6 5).status = 200 ∧
    (loginHandler ⟨[], [], []⟩ Method.POST (some ⟨"u", "p", false⟩) 300 5 5 5).cookie =
      some ("5-5") ∧
    (loginHandler
        (loginHandler ⟨[], [], []⟩ Method.POST (some ⟨"u", "p", false⟩) 300 5 5 5).st
        Method.POST (some ⟨"u", "p", false⟩) 300 5 6 5).cookie = some ("5-6") ∧
    ("5-5" : String) ≠ "5-6" ∧
    (tokenMiddleware
        (loginHandler
          (loginHandler ⟨[], [], []⟩ Method.POST (some ⟨"u", "p", false⟩) 300 5 5 5).st
          Method.POST (some ⟨"u", "p", false⟩) 300 5 6 5).st
        (some ("5-5")) 10 (fun i => ⟨200, toString i⟩)).1 = ⟨200, "5"⟩ ∧
    (tokenMiddleware
        (loginHandler
          (loginHandler ⟨[], [], []⟩ Method.POST (some ⟨"u", "p", false⟩) 300 5 5 5).st
          Method.POST (some ⟨"u", "p", false⟩) 300 5 6 5).st
        (some ("5-6")) 10 (fun i => ⟨200, toString i⟩)).1 = ⟨200, "5"⟩ := by
  refine ⟨rfl, rfl, rfl, rfl, by decide, by decide, by decide⟩

/-- C4 as amended: the owner id a login synthesizes is exactly the
`UnixNano` timestamp the call observes, so two successful login calls
resolve — via token validation on the resulting store — to DISTINCT
owner ids when (and only when) their observed id-generation timestamps
differ; the hypothesis that the two generated token strings differ keeps
the second insertion from overwriting the first token. -/
theorem C4_distinct_owner_ids_amended (st : MemoryStorage) (c1 c2 : Creds)
    (texp tId1 tTok1 tExp1 tId2 tTok2 tExp2 now : Int)
    (hid : tId1 ≠ tId2)
    (htok : generateToken tId1 tTok1 ≠ generateToken tId2 tTok2)
    (h1 : now ≤ tExp1 + texp) (h2 : now ≤ tExp2 + texp) :
    ∃ tok1 tok2 o1 o2,
      (loginHandler st Method.POST (some c1) texp tId1 tTok1 tExp1).cookie = some tok1 ∧
      (loginHandler (loginHandler st Method.POST (some c1) texp tId1 tTok1 tExp1).st
        Method.POST (some c2) texp tId2 tTok2 tExp2).cookie = some tok2 ∧
      o1 ≠ o2 ∧
      (∀ next : Int → HttpResponse,
        tokenMiddleware (loginHandler (loginHandler st Method.POST (some c1) texp tId1 tTok1
            tExp1).st Method.POST (some c2) texp tId2 tTok2 tExp2).st
          (some tok1) now next =
          (next o1, (loginHandler (loginHandler st Method.POST (some c1) texp tId1 tTok1
            tExp1).st Method.POST (some c2) texp tId2 tTok2 tExp2).st) ∧
        tokenMiddleware (loginHandler (loginHandler st Method.POST (some c1) texp tId1 tTok1
            tExp1).st Method.POST (some c2) texp tId2 tTok2 tExp2).st
          (some tok2) now next =
          (next o2, (loginHandler (loginHandler st Method.POST (some c1) texp tId1 tTok1
            tExp1).st Method.POST (some c2) texp tId2 tTok2 tExp2).st)) := by
  refine ⟨generateToken tId1 tTok1, generateToken tId2 tTok2, tId1, tId2, rfl, rfl, hid, ?_⟩
  intro next
  have hl1 : alookup (ainsert (ainsert st.Tokens (generateToken tId1 tTok1)
      { Expiry := tExp1 + texp, ID := tId1 }) (generateToken tId2 tTok2)
      { Expiry := tExp2 + texp, ID := tId2 }) (generateToken tId1 tTok1) =
      some { Expiry := tExp1 + texp, ID := tId1 } := by
    rw [alookup_ainsert_ne _ _ _ _ htok]
    exact alookup_ainsert_self _ _ _
  have hl2 : alookup (ainsert (ainsert st.Tokens (generateToken tId1 tTok1)
      { Expiry := tExp1 + texp, ID := tId1 }) (generateToken tId2 tTok2)
      { Expiry := tExp2 + texp, ID := tId2 }) (generateToken tId2 tTok2) =
      some { Expiry := tExp2 + texp, ID := tId2 } :=
    alookup_ainsert_self _ _ _
  constructor
  · simp only [loginHandler, tokenMiddleware, hl1]
    rw [if_neg (not_lt.mpr h1)]
  · simp only [loginHandler, tokenMiddleware, hl2]
    rw [if_neg (not_lt.mpr h2)]

/-- Witness for the amended C4 at concrete timestamps 1 and 2: the two
cookies "1-1" and "2-2" resolve to owner ids 1 and 2. -/
theorem C4_distinct_owner_ids_amended_witness :
    ∃ tok1 tok2 o1 o2,
      (loginHandler ⟨[], [], []⟩ Method.POST (some ⟨"u", "p", false⟩) 100 1 1 0).cookie =
        some tok1 ∧
      (loginHandler (loginHandler ⟨[], [], []⟩ Method.POST (some ⟨"u", "p", false⟩) 100 1 1 0).st
        Method.POST (some ⟨"u", "p", false⟩) 100 2 2 0).cookie = some tok2 ∧
      o1 ≠ o2 ∧
      (∀ next : Int → HttpResponse,
        tokenMiddleware (loginHandler (loginHandler ⟨[], [], []⟩ Method.POST
            (some ⟨"u", "p", false⟩) 100 1 1 0).st Method.POST (some ⟨"u", "p", false⟩)
            100 2 2 0).st (some tok1) 50 next =
          (next o1, (loginHandler (loginHandler ⟨[], [], []⟩ Method.POST
            (some ⟨"u", "p", false⟩) 100 1 1 0).st Method.POST (some ⟨"u", "p", false⟩)
            100 2 2 0).st) ∧
        tokenMiddleware (loginHandler (loginHandler ⟨[], [], []⟩ Method.POST
            (some ⟨"u", "p", false⟩) 100 1 1 0).st Method.POST (some ⟨"u", "p", false⟩)
            100 2 2 0).st (some tok2) 50 next =
          (next o2, (loginHandler (loginHandler ⟨[], [], []⟩ Method.POST
            (some ⟨"u", "p", false⟩) 100 1 1 0).st Method.POST (some ⟨"u", "p", false⟩)
            100 2 2 0).st)) :=
  C4_distinct_owner_ids_amended ⟨[], [], []⟩ ⟨"u", "p", false⟩ ⟨"u", "p", false⟩
    100 1 1 0 2 2 0 50 (by decide) (by decide) (by decide) (by decide)

end Amv
